import Mathlib

/-!
Verification of the sudoswap indexer's event decoding and state projection
against its natural-language specification.

The development has two parts:

1. A shallow embedding of the primitive decoder of the decoder module
   (concatenated into src/src/lib/schema.ts after the document separator):
   hexToBigInt, decodeU256 and decodeSpanU256, the functions the claims
   about 256-bit and span decoding are about.

2. A shallow embedding of the transform function of
   src/indexers/sudoswap.indexer.ts: the five persisted tables, the
   in-memory known-pair address set, and the per-event state transition,
   translated branch by branch from the source.
-/

/-! ## Part 1: the primitive decoder -/

/-- hexToBigInt from the decoder module: a missing (undefined, null or
empty) hex string decodes to 0n, otherwise BigInt parses the felt's
numeric value.  A felt argument is modelled as an Option Nat carrying the
parsed numeric value of the hex string, none standing for a missing or
empty element. -/
def hexToBigInt (hex : Option Nat) : Nat := hex.getD 0

/-- decodeU256 from the decoder module: (highVal << 128n) + lowVal, the
Cairo u256 decoded from its low and high felts, each half going through
hexToBigInt and so defaulting to zero when absent. -/
def decodeU256 (low high : Option Nat) : Nat :=
  (hexToBigInt high) <<< 128 + hexToBigInt low

/-- The loop of decodeSpanU256 from the decoder module: starting at index
idx, read n consecutive (low, high) felt pairs, advancing the index by
two per iteration.  data[idx] past the end of the array is undefined in
the source and decodes through hexToBigInt's zero default, which the
out-of-range List.get? models as none. -/
def decodeSpanU256Tokens (data : List Nat) (idx : Nat) : Nat → List Nat
  | 0 => []
  | n + 1 =>
    decodeU256 (data.get? idx) (data.get? (idx + 1))
      :: decodeSpanU256Tokens data (idx + 2) n

/-- decodeSpanU256 from the decoder module: the felt at startIndex is the
span length; the following felts are read as that many (low, high)
pairs; consumed is reported as the closed formula 1 + length * 2,
exactly as the source returns it. -/
def decodeSpanU256 (data : List Nat) (startIndex : Nat) :
    List Nat × Nat :=
  let length := hexToBigInt (data.get? startIndex)
  (decodeSpanU256Tokens data (startIndex + 1) length, 1 + length * 2)

/-- The low 128-bit half of a 256-bit unsigned integer split at bit 128,
per the Cairo u256 serialization the decoder module documents (u256 = a
low felt and a high felt).  Follows the spec's words (toLow in spec 8),
defined only to state the round-trip property. -/
def u256Low (x : Nat) : Nat := x % 2 ^ 128

/-- The high 128-bit half of a 256-bit unsigned integer split at bit
128, per the Cairo u256 serialization the decoder module documents.
Follows the spec's words (toHigh in spec 8), defined only to state the
round-trip property. -/
def u256High (x : Nat) : Nat := x / 2 ^ 128

theorem decodeSpanU256Tokens_length (data : List Nat) :
    ∀ n idx, (decodeSpanU256Tokens data idx n).length = n := by
  intro n
  induction n with
  | zero => intro idx; rfl
  | succ m ih =>
    intro idx
    simp only [decodeSpanU256Tokens, List.length_cons, ih (idx + 2)]

theorem decodeSpanU256Tokens_get? (data : List Nat) :
    ∀ n idx i, i < n →
      (decodeSpanU256Tokens data idx n).get? i
        = some (decodeU256 (data.get? (idx + 2 * i))
            (data.get? (idx + 2 * i + 1))) := by
  intro n
  induction n with
  | zero => intro idx i hi; omega
  | succ m ih =>
    intro idx i hi
    cases i with
    | zero => simp [decodeSpanU256Tokens]
    | succ j =>
      have h := ih (idx + 2) j (by omega)
      have e1 : idx + 2 + 2 * j = idx + 2 * (j + 1) := by omega
      simp only [decodeSpanU256Tokens, List.get?_cons_succ]
      rw [h, e1]

/-- Claim C8: for all felt inputs low and high, decodeU256 returns
high * 2^128 + low, each half independently decoding to zero when its
element is absent; consequently splitting any unsigned x < 2^256 into
its low and high 128-bit halves and re-decoding round-trips x. -/
theorem decodeU256_correct (low high : Option Nat) (x : Nat) :
    decodeU256 low high = hexToBigInt high * 2 ^ 128 + hexToBigInt low ∧
    decodeU256 low none = hexToBigInt low ∧
    decodeU256 none high = hexToBigInt high * 2 ^ 128 ∧
    (x < 2 ^ 256 →
      decodeU256 (some (u256Low x)) (some (u256High x)) = x) := by
  refine ⟨?_, ?_, ?_, ?_⟩
  · simp [decodeU256, Nat.shiftLeft_eq]
  · simp [decodeU256, hexToBigInt, Nat.shiftLeft_eq]
  · simp [decodeU256, hexToBigInt, Nat.shiftLeft_eq]
  · intro _
    simp only [decodeU256, u256Low, u256High, hexToBigInt,
      Option.getD_some, Nat.shiftLeft_eq]
    omega

theorem decodeU256_correct_witness :
    (12345 : Nat) < 2 ^ 256 ∧
      decodeU256 (some (u256Low 12345)) (some (u256High 12345))
        = 12345 := by
  have h := decodeU256_correct (some 7) (some 3) 12345
  exact ⟨by norm_num, h.2.2.2 (by norm_num)⟩

/-- Claim C9: for every data array and start index whose element at the
start index decodes to a count n, decodeSpanU256 reports exactly 1 + 2n
elements consumed and returns a sequence of exactly n decoded 256-bit
integers. -/
theorem decodeSpanU256_spec (data : List Nat) (startIndex n : Nat)
    (h : hexToBigInt (data.get? startIndex) = n) :
    (decodeSpanU256 data startIndex).1.length = n ∧
    (decodeSpanU256 data startIndex).2 = 1 + 2 * n := by
  simp only [decodeSpanU256, h]
  exact ⟨decodeSpanU256Tokens_length data n (startIndex + 1), by omega⟩

theorem decodeSpanU256_spec_witness :
    hexToBigInt (([2, 1, 0, 5, 0] : List Nat).get? 0) = 2 ∧
    (decodeSpanU256 [2, 1, 0, 5, 0] 0).1.length = 2 ∧
    (decodeSpanU256 [2, 1, 0, 5, 0] 0).2 = 1 + 2 * 2 := by
  have h := decodeSpanU256_spec [2, 1, 0, 5, 0] 0 2 (by decide)
  exact ⟨by decide, h.1, h.2⟩

/-- Claim C4, counterexample: an array whose declared count 3 overruns
the array (1 + 2 * 3 = 7 > 1 elements) is not a decode error:
decodeSpanU256 silently returns the declared number of tokens, every
missing half defaulted to zero, and still reports 7 elements
consumed. -/
theorem decodeSpanU256_overrun_not_error :
    1 + 2 * hexToBigInt (([3] : List Nat).get? 0)
      > ([3] : List Nat).length ∧
    decodeSpanU256 [3] 0 = (List.replicate 3 0, 7) := by
  refine ⟨by decide, by decide⟩

/-- Claim C4, amended: when the declared span count n requires more
elements than remain in the data array (partial or total overrun), span
decoding is not an unrecoverable error: decodeSpanU256 still returns
exactly the declared number n of tokens and reports 1 + 2n consumed,
and every token both of whose felts lie past the end of the array is
silently defaulted to zero. -/
theorem decodeSpanU256_overrun_defaults (data : List Nat)
    (startIndex n : Nat) (h : hexToBigInt (data.get? startIndex) = n)
    (hover : data.length < startIndex + 1 + 2 * n) :
    (decodeSpanU256 data startIndex).1.length = n ∧
    (decodeSpanU256 data startIndex).2 = 1 + 2 * n ∧
    ∀ i, i < n → data.length ≤ startIndex + 1 + 2 * i →
      (decodeSpanU256 data startIndex).1.get? i = some 0 := by
  simp only [decodeSpanU256, h]
  refine ⟨decodeSpanU256Tokens_length data n (startIndex + 1),
    by omega, ?_⟩
  intro i hi hpast
  rw [decodeSpanU256Tokens_get? data n (startIndex + 1) i hi]
  have h1 : data.get? (startIndex + 1 + 2 * i) = none := by
    rw [List.get?_eq_none]
    omega
  have h2 : data.get? (startIndex + 1 + 2 * i + 1) = none := by
    rw [List.get?_eq_none]
    omega
  rw [h1, h2]
  simp [decodeU256, hexToBigInt]

theorem decodeSpanU256_overrun_defaults_witness :
    hexToBigInt (([2, 5, 0] : List Nat).get? 0) = 2 ∧
    ([2, 5, 0] : List Nat).length < 0 + 1 + 2 * 2 ∧
    (decodeSpanU256 [2, 5, 0] 0).1.length = 2 ∧
    (decodeSpanU256 [2, 5, 0] 0).2 = 1 + 2 * 2 ∧
    (decodeSpanU256 [2, 5, 0] 0).1.get? 1 = some 0 := by
  have h := decodeSpanU256_overrun_defaults [2, 5, 0] 0 2
    (by decide) (by decide)
  exact ⟨by decide, by decide, h.1, h.2.1, h.2.2 1 (by decide) (by decide)⟩

/-! ## Part 2: the transform function of src/indexers/sudoswap.indexer.ts -/

/-- Lowercasing of an address string, modelling toLowerCase in the
indexer's transform function. -/
def toLowerCase (s : String) : String := s.map Char.toLower

/-- One row of the pools table (schema.ts, pgTable pools).  Numeric
columns hold arbitrary-precision decimals; tokenBalance and nftCount are
modelled as integers because the transform arithmetic on them is what the
claims are about.  Timestamp columns not set explicitly by the transform
(database-side defaults) are modelled as none. -/
structure PoolRow where
  address : String
  nftAddress : String
  tokenAddress : String
  bondingCurve : String
  poolType : String
  nftType : String
  propertyChecker : Option String
  erc1155Id : Option Nat
  spotPrice : Nat
  delta : Nat
  fee : Nat
  owner : String
  assetRecipient : Option String
  tokenBalance : Int
  nftCount : Int
  isActive : Bool
  createdAt : Option Nat
  updatedAt : Option Nat
  blockNumber : Nat
  transactionHash : String
deriving DecidableEq

/-- One row of the swaps table (schema.ts, pgTable swaps).  nftIds is the
JSON-encoded id list for ERC721 swaps, none for ERC1155 swaps. -/
structure SwapRow where
  poolAddress : String
  direction : String
  tokenAmount : Nat
  nftCount : Nat
  nftIds : Option (List Nat)
  blockNumber : Nat
  transactionHash : String
  eventIndex : Nat
  timestamp : Option Nat
deriving DecidableEq

/-- One row of the pool_nfts table (schema.ts, pgTable poolNfts). -/
structure PoolNftRow where
  poolAddress : String
  tokenId : Nat
  blockNumber : Nat
deriving DecidableEq

/-- One row of the pool_updates table (schema.ts, pgTable poolUpdates). -/
structure PoolUpdateRow where
  poolAddress : String
  updateType : String
  oldValue : Option String
  newValue : String
  blockNumber : Nat
  transactionHash : String
  eventIndex : Nat
  timestamp : Option Nat
deriving DecidableEq

/-- One row of the protocol_settings table (schema.ts, pgTable
protocolSettings). -/
structure ProtocolSettingRow where
  settingType : String
  address : Option String
  value : String
  blockNumber : Nat
  transactionHash : String
  eventIndex : Nat
  timestamp : Option Nat
deriving DecidableEq

/-- The persisted tables plus the in-memory knownPairAddresses set of the
indexer (modelled as a duplicate-free-by-insertion list). -/
structure IndexerState where
  knownPairs : List String
  pools : List PoolRow
  swaps : List SwapRow
  poolNfts : List PoolNftRow
  poolUpdates : List PoolUpdateRow
  protocolSettings : List ProtocolSettingRow
deriving DecidableEq

/-- Set.add on knownPairAddresses. -/
def addPair (pairs : List String) (a : String) : List String :=
  if pairs.contains a then pairs else a :: pairs

/-- db.select().from(pools).where(eq(pools.address, a)).limit(1): the
pools table is unique on address. -/
def findPool (pools : List PoolRow) (a : String) : Option PoolRow :=
  pools.find? (fun p => p.address == a)

/-- db.update(pools).set(...).where(eq(pools.address, a)): rewrite every
row whose address is a (at most one, by the unique constraint). -/
def updatePool (pools : List PoolRow) (a : String) (f : PoolRow → PoolRow) :
    List PoolRow :=
  pools.map (fun p => if p.address == a then f p else p)

/-- db.insert(pools).values(row).onConflictDoUpdate(target: address):
insert the row, or apply the conflict update to the existing row with the
same address. -/
def upsertPool (pools : List PoolRow) (row : PoolRow)
    (onConflict : PoolRow → PoolRow) : List PoolRow :=
  if pools.any (fun p => p.address == row.address) then
    updatePool pools row.address onConflict
  else row :: pools

/-- Membership of the (blockNumber, transactionHash, eventIndex)
idempotency key in the swaps table. -/
def swapKeyMem (swaps : List SwapRow) (b : Nat) (tx : String) (i : Nat) :
    Bool :=
  swaps.any (fun r => r.blockNumber == b && r.transactionHash == tx &&
    r.eventIndex == i)

/-- db.insert(swaps).values(row).onConflictDoNothing(): the unique index
swaps_block_tx_event_idx makes re-insertion of the same physical event a
no-op. -/
def insertSwap (swaps : List SwapRow) (row : SwapRow) : List SwapRow :=
  if swapKeyMem swaps row.blockNumber row.transactionHash row.eventIndex
  then swaps else row :: swaps

/-- db.insert(poolNfts).values(row).onConflictDoNothing(): the unique
index pool_nfts_pool_token_idx skips a (poolAddress, tokenId) pair already
present. -/
def insertNft (nfts : List PoolNftRow) (row : PoolNftRow) :
    List PoolNftRow :=
  if nfts.any (fun r => r.poolAddress == row.poolAddress &&
      r.tokenId == row.tokenId)
  then nfts else row :: nfts

/-- Multi-row db.insert(poolNfts).values(rows).onConflictDoNothing(). -/
def insertNfts (nfts : List PoolNftRow) (rows : List PoolNftRow) :
    List PoolNftRow :=
  rows.foldl insertNft nfts

/-- db.delete(poolNfts).where(poolAddress = a and tokenId in ids). -/
def deleteNfts (nfts : List PoolNftRow) (a : String) (ids : List Nat) :
    List PoolNftRow :=
  nfts.filter (fun r => !(r.poolAddress == a && ids.contains r.tokenId))

/-- Membership of the idempotency key in the pool_updates table. -/
def updateKeyMem (l : List PoolUpdateRow) (b : Nat) (tx : String) (i : Nat) :
    Bool :=
  l.any (fun r => r.blockNumber == b && r.transactionHash == tx &&
    r.eventIndex == i)

/-- db.insert(poolUpdates).values(row).onConflictDoNothing() against the
unique index pool_updates_block_tx_event_idx. -/
def insertUpdate (l : List PoolUpdateRow) (row : PoolUpdateRow) :
    List PoolUpdateRow :=
  if updateKeyMem l row.blockNumber row.transactionHash row.eventIndex
  then l else row :: l

/-- Membership of the idempotency key in the protocol_settings table. -/
def settingKeyMem (l : List ProtocolSettingRow) (b : Nat) (tx : String)
    (i : Nat) : Bool :=
  l.any (fun r => r.blockNumber == b && r.transactionHash == tx &&
    r.eventIndex == i)

/-- db.insert(protocolSettings).values(row).onConflictDoNothing() against
the unique index protocol_settings_block_tx_event_idx. -/
def insertSetting (l : List ProtocolSettingRow) (row : ProtocolSettingRow) :
    List ProtocolSettingRow :=
  if settingKeyMem l row.blockNumber row.transactionHash row.eventIndex
  then l else row :: l

/-- The decoded payload of one event, one constructor per selector handled
by the transform function's dispatch chain, plus unknownSelector for a
selector matching none of the EVENT_SELECTORS. -/
inductive EventKind where
  | newERC721Pair (poolAddress : String) (initialIds : List Nat)
  | newERC1155Pair (poolAddress : String) (initialBalance : Nat)
  | erc20Deposit (poolAddress : String) (amount : Nat)
  | nftDeposit (poolAddress : String) (ids : List Nat)
  | erc1155Deposit (poolAddress : String) (tokenId amount : Nat)
  | protocolFeeRecipientUpdate (recipientAddress : String)
  | protocolFeeMultiplierUpdate (newMultiplier : Nat)
  | bondingCurveStatusUpdate (bondingCurve : String) (isAllowed : Bool)
  | routerStatusUpdate (router : String) (isAllowed : Bool)
  | spotPriceUpdate (newSpotPrice : Nat)
  | deltaUpdate (newDelta : Nat)
  | feeUpdate (newFee : Nat)
  | assetRecipientChange (newRecipient : String)
  | tokenDeposit (amount : Nat)
  | tokenWithdrawal (amount : Nat)
  | ownershipTransferred (previousOwner newOwner : String)
  | swapNFTOutPairIds (amountIn : Nat) (ids : List Nat)
  | swapNFTInPairIds (amountOut : Nat) (ids : List Nat)
  | nftWithdrawalIds (ids : List Nat)
  | swapNFTOutPairCount (amountIn numNfts : Nat)
  | swapNFTInPairCount (amountOut numNfts : Nat)
  | nftWithdrawalCount (numNfts : Nat)
  | unknownSelector
deriving DecidableEq

/-- One event as seen by the transform loop: the normalized emitting
address (feltToHex(event.address).toLowerCase()), the decoded payload,
and the transaction hash and in-transaction event index. -/
structure RawEvent where
  address : String
  kind : EventKind
  transactionHash : String
  eventIndex : Nat
deriving DecidableEq

/-- Transform branch for selector NewERC721Pair from the factory
(sudoswap.indexer.ts lines 189-231): record the pair address, upsert the
Pool row with placeholder parameter values, and insert the initial NFT
inventory. -/
def applyNewERC721Pair (b ts : Nat) (tx : String) (st : IndexerState)
    (poolAddress : String) (initialIds : List Nat) : IndexerState :=
  let pairs := addPair st.knownPairs (toLowerCase poolAddress)
  let row : PoolRow :=
    { address := poolAddress, nftAddress := "0x0", tokenAddress := "0x0",
      bondingCurve := "0x0", poolType := "TRADE", nftType := "ERC721",
      propertyChecker := none, erc1155Id := none,
      spotPrice := 0, delta := 0, fee := 0, owner := "0x0",
      assetRecipient := none, tokenBalance := 0,
      nftCount := (initialIds.length : Int),
      isActive := decide (0 < initialIds.length),
      createdAt := some ts, updatedAt := none,
      blockNumber := b, transactionHash := tx }
  let pools := upsertPool st.pools row (fun p =>
    { p with nftCount := (initialIds.length : Int), updatedAt := some ts })
  let nfts :=
    if 0 < initialIds.length then
      insertNfts st.poolNfts (initialIds.map (fun tokenId =>
        { poolAddress := poolAddress, tokenId := tokenId, blockNumber := b }))
    else st.poolNfts
  { st with knownPairs := pairs, pools := pools, poolNfts := nfts }

/-- Transform branch for selector NewERC1155Pair from the factory
(sudoswap.indexer.ts lines 233-263). -/
def applyNewERC1155Pair (b ts : Nat) (tx : String) (st : IndexerState)
    (poolAddress : String) (initialBalance : Nat) : IndexerState :=
  let pairs := addPair st.knownPairs (toLowerCase poolAddress)
  let row : PoolRow :=
    { address := poolAddress, nftAddress := "0x0", tokenAddress := "0x0",
      bondingCurve := "0x0", poolType := "TRADE", nftType := "ERC1155",
      propertyChecker := none, erc1155Id := none,
      spotPrice := 0, delta := 0, fee := 0, owner := "0x0",
      assetRecipient := none, tokenBalance := 0,
      nftCount := (initialBalance : Int),
      isActive := decide (0 < initialBalance),
      createdAt := some ts, updatedAt := none,
      blockNumber := b, transactionHash := tx }
  let pools := upsertPool st.pools row (fun p =>
    { p with nftCount := (initialBalance : Int), updatedAt := some ts })
  { st with knownPairs := pairs, pools := pools }

/-- Transform branch for selector ERC20Deposit from the factory
(sudoswap.indexer.ts lines 265-282): add the amount to the pool's token
balance and mark it active, if the Pool row exists. -/
def applyERC20Deposit (ts : Nat) (st : IndexerState) (poolAddress : String)
    (amount : Nat) : IndexerState :=
  match findPool st.pools poolAddress with
  | some p =>
    { st with pools := updatePool st.pools poolAddress (fun q =>
        { q with tokenBalance := p.tokenBalance + (amount : Int),
                 isActive := true, updatedAt := some ts }) }
  | none => st

/-- Transform branch for selector NFTDeposit from the factory
(sudoswap.indexer.ts lines 284-310): insert the deposited ids into
pool_nfts and add their number to the pool's NFT count. -/
def applyNFTDeposit (b ts : Nat) (st : IndexerState) (poolAddress : String)
    (ids : List Nat) : IndexerState :=
  if 0 < ids.length then
    let nfts := insertNfts st.poolNfts (ids.map (fun tokenId =>
      { poolAddress := poolAddress, tokenId := tokenId, blockNumber := b }))
    match findPool st.pools poolAddress with
    | some p =>
      { st with poolNfts := nfts,
                pools := updatePool st.pools poolAddress (fun q =>
        { q with nftCount := p.nftCount + (ids.length : Int),
                 isActive := true, updatedAt := some ts }) }
    | none => { st with poolNfts := nfts }
  else st

/-- Transform branch for selector ERC1155Deposit from the factory
(sudoswap.indexer.ts lines 312-329). -/
def applyERC1155Deposit (ts : Nat) (st : IndexerState) (poolAddress : String)
    (tokenId amount : Nat) : IndexerState :=
  match findPool st.pools poolAddress with
  | some p =>
    { st with pools := updatePool st.pools poolAddress (fun q =>
        { q with nftCount := p.nftCount + (amount : Int),
                 erc1155Id := some tokenId,
                 isActive := true, updatedAt := some ts }) }
  | none => st

/-- Transform branches for the four protocol-setting selectors from the
factory (sudoswap.indexer.ts lines 331-388): append-only insert into
protocol_settings, keyed for idempotency. -/
def applyProtocolSetting (b ts : Nat) (tx : String) (i : Nat)
    (st : IndexerState) (settingType : String) (address : Option String)
    (value : String) : IndexerState :=
  let row : ProtocolSettingRow :=
    { settingType := settingType, address := address, value := value,
      blockNumber := b, transactionHash := tx, eventIndex := i,
      timestamp := some ts }
  { st with protocolSettings := insertSetting st.protocolSettings row }

/-- Transform branches for the SpotPriceUpdate, DeltaUpdate and FeeUpdate
selectors from a known pair (sudoswap.indexer.ts lines 392-471): read the
current value as oldValue (null when no Pool row exists), write the new
value onto the Pool row, and append one pool_updates audit row.  The
field accessor and updater are passed in to share the identical shape of
the three branches. -/
def applyParamUpdate (b ts : Nat) (tx : String) (i : Nat)
    (st : IndexerState) (addr : String) (updateType : String)
    (get : PoolRow → Nat) (set : PoolRow → Nat → PoolRow) (newValue : Nat) :
    IndexerState :=
  let oldValue := (findPool st.pools addr).map get
  let pools := updatePool st.pools addr (fun q =>
    { set q newValue with updatedAt := some ts })
  let row : PoolUpdateRow :=
    { poolAddress := addr, updateType := updateType,
      oldValue := oldValue.map Nat.repr, newValue := Nat.repr newValue,
      blockNumber := b, transactionHash := tx, eventIndex := i,
      timestamp := some ts }
  { st with pools := pools,
            poolUpdates := insertUpdate st.poolUpdates row }

/-- Transform branch for selector AssetRecipientChange from a known pair
(sudoswap.indexer.ts lines 473-497). -/
def applyAssetRecipientChange (b ts : Nat) (tx : String) (i : Nat)
    (st : IndexerState) (addr : String) (newRecipient : String) :
    IndexerState :=
  let oldValue := (findPool st.pools addr).bind (fun p => p.assetRecipient)
  let pools := updatePool st.pools addr (fun q =>
    { q with assetRecipient := some newRecipient, updatedAt := some ts })
  let row : PoolUpdateRow :=
    { poolAddress := addr, updateType := "ASSET_RECIPIENT",
      oldValue := oldValue, newValue := newRecipient,
      blockNumber := b, transactionHash := tx, eventIndex := i,
      timestamp := some ts }
  { st with pools := pools,
            poolUpdates := insertUpdate st.poolUpdates row }

/-- Transform branch for selector TokenDeposit from a known pair
(sudoswap.indexer.ts lines 499-515). -/
def applyTokenDeposit (ts : Nat) (st : IndexerState) (addr : String)
    (amount : Nat) : IndexerState :=
  match findPool st.pools addr with
  | some p =>
    { st with pools := updatePool st.pools addr (fun q =>
        { q with tokenBalance := p.tokenBalance + (amount : Int),
                 isActive := true, updatedAt := some ts }) }
  | none => st

/-- Transform branch for selector TokenWithdrawal from a known pair
(sudoswap.indexer.ts lines 517-532): the new balance is
currentBalance > amount ? currentBalance - amount : 0, and isActive is
not touched. -/
def applyTokenWithdrawal (ts : Nat) (st : IndexerState) (addr : String)
    (amount : Nat) : IndexerState :=
  match findPool st.pools addr with
  | some p =>
    let newBalance : Int :=
      if p.tokenBalance > (amount : Int) then p.tokenBalance - (amount : Int)
      else 0
    { st with pools := updatePool st.pools addr (fun q =>
        { q with tokenBalance := newBalance, updatedAt := some ts }) }
  | none => st

/-- Transform branch for selector OwnershipTransferred from a known pair
(sudoswap.indexer.ts lines 534-555). -/
def applyOwnershipTransferred (b ts : Nat) (tx : String) (i : Nat)
    (st : IndexerState) (addr : String) (previousOwner newOwner : String) :
    IndexerState :=
  let pools := updatePool st.pools addr (fun q =>
    { q with owner := newOwner, updatedAt := some ts })
  let row : PoolUpdateRow :=
    { poolAddress := addr, updateType := "OWNER",
      oldValue := some previousOwner, newValue := newOwner,
      blockNumber := b, transactionHash := tx, eventIndex := i,
      timestamp := some ts }
  { st with pools := pools,
            poolUpdates := insertUpdate st.poolUpdates row }

/-- Transform branch for selector SwapNFTOutPairIds (BUY) from a known
pair (sudoswap.indexer.ts lines 559-603): insert an idempotent Swap row,
delete the bought ids from pool_nfts, then decrement the pool's NFT count
(floored at zero), credit the amount paid in, and set isActive from the
remaining NFT count alone. -/
def applySwapNFTOutPairIds (b ts : Nat) (tx : String) (i : Nat)
    (st : IndexerState) (addr : String) (amountIn : Nat) (ids : List Nat) :
    IndexerState :=
  let swapRow : SwapRow :=
    { poolAddress := addr, direction := "BUY", tokenAmount := amountIn,
      nftCount := ids.length, nftIds := some ids,
      blockNumber := b, transactionHash := tx, eventIndex := i,
      timestamp := some ts }
  let swaps := insertSwap st.swaps swapRow
  let nfts :=
    if 0 < ids.length then deleteNfts st.poolNfts addr ids else st.poolNfts
  match findPool st.pools addr with
  | some p =>
    let newNftCount : Int := max 0 (p.nftCount - (ids.length : Int))
    let newTokenBalance : Int := p.tokenBalance + (amountIn : Int)
    { st with swaps := swaps, poolNfts := nfts,
              pools := updatePool st.pools addr (fun q =>
        { q with nftCount := newNftCount, tokenBalance := newTokenBalance,
                 isActive := decide (0 < newNftCount),
                 updatedAt := some ts }) }
  | none => { st with swaps := swaps, poolNfts := nfts }

/-- Transform branch for selector SwapNFTInPairIds (SELL) from a known
pair (sudoswap.indexer.ts lines 605-649): insert an idempotent Swap row,
insert the received ids into pool_nfts, then increment the pool's NFT
count, debit the amount paid out (floored at zero), and set isActive to
true. -/
def applySwapNFTInPairIds (b ts : Nat) (tx : String) (i : Nat)
    (st : IndexerState) (addr : String) (amountOut : Nat) (ids : List Nat) :
    IndexerState :=
  let swapRow : SwapRow :=
    { poolAddress := addr, direction := "SELL", tokenAmount := amountOut,
      nftCount := ids.length, nftIds := some ids,
      blockNumber := b, transactionHash := tx, eventIndex := i,
      timestamp := some ts }
  let swaps := insertSwap st.swaps swapRow
  let nfts :=
    if 0 < ids.length then
      insertNfts st.poolNfts (ids.map (fun tokenId =>
        { poolAddress := addr, tokenId := tokenId, blockNumber := b }))
    else st.poolNfts
  match findPool st.pools addr with
  | some p =>
    let newNftCount : Int := p.nftCount + (ids.length : Int)
    let newTokenBalance : Int :=
      if p.tokenBalance > (amountOut : Int) then
        p.tokenBalance - (amountOut : Int)
      else 0
    { st with swaps := swaps, poolNfts := nfts,
              pools := updatePool st.pools addr (fun q =>
        { q with nftCount := newNftCount, tokenBalance := newTokenBalance,
                 isActive := true, updatedAt := some ts }) }
  | none => { st with swaps := swaps, poolNfts := nfts }

/-- Transform branch for selector NFTWithdrawalIds from a known pair
(sudoswap.indexer.ts lines 651-679): delete the withdrawn ids, decrement
the NFT count (floored at zero), no Swap row and no balance change;
isActive becomes newNftCount > 0 or tokenBalance > 0. -/
def applyNFTWithdrawalIds (ts : Nat) (st : IndexerState) (addr : String)
    (ids : List Nat) : IndexerState :=
  let nfts :=
    if 0 < ids.length then deleteNfts st.poolNfts addr ids else st.poolNfts
  match findPool st.pools addr with
  | some p =>
    let newNftCount : Int := max 0 (p.nftCount - (ids.length : Int))
    { st with poolNfts := nfts,
              pools := updatePool st.pools addr (fun q =>
        { q with nftCount := newNftCount,
                 isActive := decide (0 < newNftCount) ||
                   decide (0 < p.tokenBalance),
                 updatedAt := some ts }) }
  | none => { st with poolNfts := nfts }

/-- Transform branch for selector SwapNFTOutPairCount (BUY, ERC1155) from
a known pair (sudoswap.indexer.ts lines 683-714): like the ids shape but
with a bare count and no pool_nfts rows. -/
def applySwapNFTOutPairCount (b ts : Nat) (tx : String) (i : Nat)
    (st : IndexerState) (addr : String) (amountIn numNfts : Nat) :
    IndexerState :=
  let swapRow : SwapRow :=
    { poolAddress := addr, direction := "BUY", tokenAmount := amountIn,
      nftCount := numNfts, nftIds := none,
      blockNumber := b, transactionHash := tx, eventIndex := i,
      timestamp := some ts }
  let swaps := insertSwap st.swaps swapRow
  match findPool st.pools addr with
  | some p =>
    let newNftCount : Int := max 0 (p.nftCount - (numNfts : Int))
    let newTokenBalance : Int := p.tokenBalance + (amountIn : Int)
    { st with swaps := swaps,
              pools := updatePool st.pools addr (fun q =>
        { q with nftCount := newNftCount, tokenBalance := newTokenBalance,
                 isActive := decide (0 < newNftCount),
                 updatedAt := some ts }) }
  | none => { st with swaps := swaps }

/-- Transform branch for selector SwapNFTInPairCount (SELL, ERC1155) from
a known pair (sudoswap.indexer.ts lines 716-749). -/
def applySwapNFTInPairCount (b ts : Nat) (tx : String) (i : Nat)
    (st : IndexerState) (addr : String) (amountOut numNfts : Nat) :
    IndexerState :=
  let swapRow : SwapRow :=
    { poolAddress := addr, direction := "SELL", tokenAmount := amountOut,
      nftCount := numNfts, nftIds := none,
      blockNumber := b, transactionHash := tx, eventIndex := i,
      timestamp := some ts }
  let swaps := insertSwap st.swaps swapRow
  match findPool st.pools addr with
  | some p =>
    let newNftCount : Int := p.nftCount + (numNfts : Int)
    let newTokenBalance : Int :=
      if p.tokenBalance > (amountOut : Int) then
        p.tokenBalance - (amountOut : Int)
      else 0
    { st with swaps := swaps,
              pools := updatePool st.pools addr (fun q =>
        { q with nftCount := newNftCount, tokenBalance := newTokenBalance,
                 isActive := true, updatedAt := some ts }) }
  | none => { st with swaps := swaps }

/-- Transform branch for selector NFTWithdrawalCount from a known pair
(sudoswap.indexer.ts lines 751-766). -/
def applyNFTWithdrawalCount (ts : Nat) (st : IndexerState) (addr : String)
    (numNfts : Nat) : IndexerState :=
  match findPool st.pools addr with
  | some p =>
    let newNftCount : Int := max 0 (p.nftCount - (numNfts : Int))
    { st with pools := updatePool st.pools addr (fun q =>
        { q with nftCount := newNftCount,
                 isActive := decide (0 < newNftCount) ||
                   decide (0 < p.tokenBalance),
                 updatedAt := some ts }) }
  | none => st

/-- One iteration of the transform function's event loop
(sudoswap.indexer.ts lines 168-778): classify the emitting address as
factory / known pair / neither, skip events from neither, then dispatch
on the selector, each branch additionally guarded by the expected source
family exactly as the if/else-if chain is. -/
def processEvent (factory : String) (b ts : Nat) (st : IndexerState)
    (e : RawEvent) : IndexerState :=
  let isFromFactory := e.address == factory
  let isFromPair := st.knownPairs.contains e.address
  if !isFromFactory && !isFromPair then st
  else
    match e.kind with
    | .newERC721Pair poolAddress initialIds =>
      if isFromFactory then
        applyNewERC721Pair b ts e.transactionHash st poolAddress initialIds
      else st
    | .newERC1155Pair poolAddress initialBalance =>
      if isFromFactory then
        applyNewERC1155Pair b ts e.transactionHash st poolAddress
          initialBalance
      else st
    | .erc20Deposit poolAddress amount =>
      if isFromFactory then applyERC20Deposit ts st poolAddress amount
      else st
    | .nftDeposit poolAddress ids =>
      if isFromFactory then applyNFTDeposit b ts st poolAddress ids else st
    | .erc1155Deposit poolAddress tokenId amount =>
      if isFromFactory then
        applyERC1155Deposit ts st poolAddress tokenId amount
      else st
    | .protocolFeeRecipientUpdate recipientAddress =>
      if isFromFactory then
        applyProtocolSetting b ts e.transactionHash e.eventIndex st
          "FEE_RECIPIENT" (some recipientAddress) recipientAddress
      else st
    | .protocolFeeMultiplierUpdate newMultiplier =>
      if isFromFactory then
        applyProtocolSetting b ts e.transactionHash e.eventIndex st
          "FEE_MULTIPLIER" none (Nat.repr newMultiplier)
      else st
    | .bondingCurveStatusUpdate bondingCurve isAllowed =>
      if isFromFactory then
        applyProtocolSetting b ts e.transactionHash e.eventIndex st
          "CURVE_STATUS" (some bondingCurve)
          (if isAllowed then "true" else "false")
      else st
    | .routerStatusUpdate router isAllowed =>
      if isFromFactory then
        applyProtocolSetting b ts e.transactionHash e.eventIndex st
          "ROUTER_STATUS" (some router)
          (if isAllowed then "true" else "false")
      else st
    | .spotPriceUpdate newSpotPrice =>
      if isFromPair then
        applyParamUpdate b ts e.transactionHash e.eventIndex st e.address
          "SPOT_PRICE" (fun p => p.spotPrice)
          (fun p v => { p with spotPrice := v }) newSpotPrice
      else st
    | .deltaUpdate newDelta =>
      if isFromPair then
        applyParamUpdate b ts e.transactionHash e.eventIndex st e.address
          "DELTA" (fun p => p.delta)
          (fun p v => { p with delta := v }) newDelta
      else st
    | .feeUpdate newFee =>
      if isFromPair then
        applyParamUpdate b ts e.transactionHash e.eventIndex st e.address
          "FEE" (fun p => p.fee)
          (fun p v => { p with fee := v }) newFee
      else st
    | .assetRecipientChange newRecipient =>
      if isFromPair then
        applyAssetRecipientChange b ts e.transactionHash e.eventIndex st
          e.address newRecipient
      else st
    | .tokenDeposit amount =>
      if isFromPair then applyTokenDeposit ts st e.address amount else st
    | .tokenWithdrawal amount =>
      if isFromPair then applyTokenWithdrawal ts st e.address amount else st
    | .ownershipTransferred previousOwner newOwner =>
      if isFromPair then
        applyOwnershipTransferred b ts e.transactionHash e.eventIndex st
          e.address previousOwner newOwner
      else st
    | .swapNFTOutPairIds amountIn ids =>
      if isFromPair then
        applySwapNFTOutPairIds b ts e.transactionHash e.eventIndex st
          e.address amountIn ids
      else st
    | .swapNFTInPairIds amountOut ids =>
      if isFromPair then
        applySwapNFTInPairIds b ts e.transactionHash e.eventIndex st
          e.address amountOut ids
      else st
    | .nftWithdrawalIds ids =>
      if isFromPair then applyNFTWithdrawalIds ts st e.address ids else st
    | .swapNFTOutPairCount amountIn numNfts =>
      if isFromPair then
        applySwapNFTOutPairCount b ts e.transactionHash e.eventIndex st
          e.address amountIn numNfts
      else st
    | .swapNFTInPairCount amountOut numNfts =>
      if isFromPair then
        applySwapNFTInPairCount b ts e.transactionHash e.eventIndex st
          e.address amountOut numNfts
      else st
    | .nftWithdrawalCount numNfts =>
      if isFromPair then applyNFTWithdrawalCount ts st e.address numNfts
      else st
    | .unknownSelector => st

/-- The transform loop over a whole delivered stream, each event tagged
with its block's number and timestamp, processed strictly in delivery
order. -/
def processAll (factory : String) (st : IndexerState)
    (evs : List (Nat × Nat × RawEvent)) : IndexerState :=
  evs.foldl (fun s ev => processEvent factory ev.1 ev.2.1 s ev.2.2) st

/-! ## Helper lemmas about the table operations -/

theorem findPool_mem {pools : List PoolRow} {a : String} {p : PoolRow}
    (h : findPool pools a = some p) : p ∈ pools :=
  List.mem_of_find?_eq_some h

theorem findPool_updatePool (pools : List PoolRow) (a : String)
    (f : PoolRow → PoolRow) (hf : ∀ q, (f q).address = q.address) :
    findPool (updatePool pools a f) a = (findPool pools a).map f := by
  induction pools with
  | nil => rfl
  | cons r ps ih =>
    simp only [updatePool, List.map_cons, findPool, List.find?_cons] at ih ⊢
    cases hb : (r.address == a) with
    | true => simp [hb, hf r]
    | false => simpa [hb] using ih

theorem updatePool_of_findPool_none {pools : List PoolRow} {a : String}
    (f : PoolRow → PoolRow) (h : findPool pools a = none) :
    updatePool pools a f = pools := by
  induction pools with
  | nil => rfl
  | cons r ps ih =>
    simp only [findPool, List.find?_cons] at h
    cases hb : (r.address == a) with
    | true => simp [hb] at h
    | false =>
      simp only [hb] at h
      have htail := ih h
      show (if (r.address == a) = true then f r else r) ::
        updatePool ps a f = r :: ps
      rw [if_neg (by rw [hb]; exact Bool.false_ne_true), htail]

theorem upsertPool_of_findPool_none {pools : List PoolRow} {row : PoolRow}
    (f : PoolRow → PoolRow) (h : findPool pools row.address = none) :
    upsertPool pools row f = row :: pools := by
  have hany : pools.any (fun p => p.address == row.address) = false := by
    by_contra hc
    rw [Bool.not_eq_false] at hc
    obtain ⟨p, hp, hpp⟩ := List.any_eq_true.mp hc
    exact (List.find?_eq_none.mp h p hp) hpp
  unfold upsertPool
  rw [hany]
  simp

theorem insertUpdate_of_fresh {l : List PoolUpdateRow} {row : PoolUpdateRow}
    (h : updateKeyMem l row.blockNumber row.transactionHash row.eventIndex
      = false) : insertUpdate l row = row :: l := by
  unfold insertUpdate
  rw [h]
  simp

theorem swapKeyMem_insertSwap (l : List SwapRow) (row : SwapRow) :
    swapKeyMem (insertSwap l row) row.blockNumber row.transactionHash
      row.eventIndex = true := by
  unfold insertSwap
  by_cases h : swapKeyMem l row.blockNumber row.transactionHash
      row.eventIndex = true
  · rwa [if_pos h]
  · rw [if_neg h]
    unfold swapKeyMem
    simp

theorem insertSwap_insertSwap (l : List SwapRow) (row : SwapRow) :
    insertSwap (insertSwap l row) row = insertSwap l row := by
  show (if swapKeyMem (insertSwap l row) row.blockNumber
      row.transactionHash row.eventIndex = true then insertSwap l row
    else row :: insertSwap l row) = insertSwap l row
  rw [if_pos (swapKeyMem_insertSwap l row)]

/-! ## Concrete fixtures used by witnesses and counterexamples -/

/-- A sample well-formed Pool row for the pair address 0xp, as produced by
a creation event later enriched; used to instantiate theorems with
hypotheses on concrete inputs. -/
def samplePool : PoolRow :=
  { address := "0xp", nftAddress := "0xa", tokenAddress := "0xt",
    bondingCurve := "0xc", poolType := "TRADE", nftType := "ERC721",
    propertyChecker := none, erc1155Id := none, spotPrice := 5,
    delta := 1, fee := 0, owner := "0xo", assetRecipient := none,
    tokenBalance := 7, nftCount := 1, isActive := true,
    createdAt := some 1, updatedAt := none, blockNumber := 1,
    transactionHash := "0xh" }

/-- A sample indexer state holding the one known pair 0xp. -/
def sampleState : IndexerState :=
  { knownPairs := ["0xp"], pools := [samplePool],
    swaps := [],
    poolNfts := [{ poolAddress := "0xp", tokenId := 1, blockNumber := 1 }],
    poolUpdates := [], protocolSettings := [] }

/-! ## Claim C5: token withdrawal is a saturating subtraction -/

/-- Claim C5: for every token-withdrawal event on a known pool with an
existing Pool row, the new tokenBalance equals max(0, old tokenBalance
minus the withdrawn amount); in particular the balance is floored at zero
and never becomes negative. -/
theorem tokenWithdrawal_saturating (factory : String) (b ts : Nat)
    (st : IndexerState) (addr tx : String) (i amount : Nat) (p : PoolRow)
    (hpair : st.knownPairs.contains addr = true)
    (hfind : findPool st.pools addr = some p) :
    ∃ q, findPool (processEvent factory b ts st
        { address := addr, kind := .tokenWithdrawal amount,
          transactionHash := tx, eventIndex := i }).pools addr = some q ∧
      q.tokenBalance = max 0 (p.tokenBalance - (amount : Int)) ∧
      0 ≤ q.tokenBalance := by
  have hm : addr ∈ st.knownPairs := List.elem_iff.mp hpair
  have hstep : processEvent factory b ts st
      { address := addr, kind := .tokenWithdrawal amount,
        transactionHash := tx, eventIndex := i }
      = applyTokenWithdrawal ts st addr amount := by
    simp [processEvent, hm]
  rw [hstep]
  simp only [applyTokenWithdrawal, hfind]
  refine ⟨{ p with
      tokenBalance := if p.tokenBalance > (amount : Int) then
        p.tokenBalance - (amount : Int) else 0,
      updatedAt := some ts }, ?_, ?_, ?_⟩
  · rw [findPool_updatePool st.pools addr (fun q => { q with
        tokenBalance := if p.tokenBalance > (amount : Int) then
          p.tokenBalance - (amount : Int) else 0,
        updatedAt := some ts }) (fun q => rfl), hfind]
    rfl
  · show (if p.tokenBalance > (amount : Int) then
      p.tokenBalance - (amount : Int) else 0)
      = max 0 (p.tokenBalance - (amount : Int))
    split <;> omega
  · show (0 : Int) ≤ (if p.tokenBalance > (amount : Int) then
      p.tokenBalance - (amount : Int) else 0)
    split <;> omega

theorem tokenWithdrawal_saturating_witness :
    sampleState.knownPairs.contains "0xp" = true ∧
    findPool sampleState.pools "0xp" = some samplePool ∧
    ∃ q, findPool (processEvent "0xf" 2 20 sampleState
        { address := "0xp", kind := .tokenWithdrawal 100,
          transactionHash := "0xtx", eventIndex := 0 }).pools "0xp"
      = some q ∧
      q.tokenBalance = max 0 (samplePool.tokenBalance - (100 : Nat)) ∧
      0 ≤ q.tokenBalance :=
  ⟨by decide, by decide,
    tokenWithdrawal_saturating "0xf" 2 20 sampleState "0xp" "0xtx" 0 100
      samplePool (by decide) (by decide)⟩

/-- Convenience constructor for one raw event. -/
def mkEvent (addr : String) (k : EventKind) (tx : String) (i : Nat) :
    RawEvent :=
  { address := addr, kind := k, transactionHash := tx, eventIndex := i }

/-! ## Claim C6: parameter updates on a missing Pool row -/

theorem applyParamUpdate_pools_of_none {st : IndexerState} {addr : String}
    (b ts : Nat) (tx : String) (i : Nat) (ut : String)
    (get : PoolRow → Nat) (set : PoolRow → Nat → PoolRow) (v : Nat)
    (hnone : findPool st.pools addr = none) :
    (applyParamUpdate b ts tx i st addr ut get set v).pools = st.pools := by
  simp only [applyParamUpdate]
  exact updatePool_of_findPool_none _ hnone

theorem applyParamUpdate_audit_of_none {st : IndexerState} {addr : String}
    (b ts : Nat) (tx : String) (i : Nat) (ut : String)
    (get : PoolRow → Nat) (set : PoolRow → Nat → PoolRow) (v : Nat)
    (hnone : findPool st.pools addr = none)
    (hfresh : updateKeyMem st.poolUpdates b tx i = false) :
    (applyParamUpdate b ts tx i st addr ut get set v).poolUpdates
      = { poolAddress := addr, updateType := ut, oldValue := none,
          newValue := Nat.repr v, blockNumber := b, transactionHash := tx,
          eventIndex := i, timestamp := some ts } :: st.poolUpdates := by
  simp only [applyParamUpdate, hnone, Option.map_none']
  exact insertUpdate_of_fresh hfresh

/-- Claim C6: a spot-price, delta, fee or asset-recipient update event
from a known pool address with no existing Pool row does not fail and
does not create or modify any Pool row, and the PoolUpdate audit row is
still appended with oldValue recorded as null. -/
theorem paramUpdate_missing_pool_row (factory : String) (b ts : Nat)
    (st : IndexerState) (addr tx r : String) (i v : Nat)
    (hpair : st.knownPairs.contains addr = true)
    (hnone : findPool st.pools addr = none)
    (hfresh : updateKeyMem st.poolUpdates b tx i = false) :
    ((processEvent factory b ts st
        (mkEvent addr (.spotPriceUpdate v) tx i)).pools = st.pools ∧
      (processEvent factory b ts st
        (mkEvent addr (.spotPriceUpdate v) tx i)).poolUpdates
        = { poolAddress := addr, updateType := "SPOT_PRICE",
            oldValue := none, newValue := Nat.repr v, blockNumber := b,
            transactionHash := tx, eventIndex := i,
            timestamp := some ts } :: st.poolUpdates) ∧
    ((processEvent factory b ts st
        (mkEvent addr (.deltaUpdate v) tx i)).pools = st.pools ∧
      (processEvent factory b ts st
        (mkEvent addr (.deltaUpdate v) tx i)).poolUpdates
        = { poolAddress := addr, updateType := "DELTA",
            oldValue := none, newValue := Nat.repr v, blockNumber := b,
            transactionHash := tx, eventIndex := i,
            timestamp := some ts } :: st.poolUpdates) ∧
    ((processEvent factory b ts st
        (mkEvent addr (.feeUpdate v) tx i)).pools = st.pools ∧
      (processEvent factory b ts st
        (mkEvent addr (.feeUpdate v) tx i)).poolUpdates
        = { poolAddress := addr, updateType := "FEE",
            oldValue := none, newValue := Nat.repr v, blockNumber := b,
            transactionHash := tx, eventIndex := i,
            timestamp := some ts } :: st.poolUpdates) ∧
    ((processEvent factory b ts st
        (mkEvent addr (.assetRecipientChange r) tx i)).pools = st.pools ∧
      (processEvent factory b ts st
        (mkEvent addr (.assetRecipientChange r) tx i)).poolUpdates
        = { poolAddress := addr, updateType := "ASSET_RECIPIENT",
            oldValue := none, newValue := r, blockNumber := b,
            transactionHash := tx, eventIndex := i,
            timestamp := some ts } :: st.poolUpdates) := by
  have hm : addr ∈ st.knownPairs := List.elem_iff.mp hpair
  have hspot : processEvent factory b ts st
      (mkEvent addr (.spotPriceUpdate v) tx i)
      = applyParamUpdate b ts tx i st addr "SPOT_PRICE"
        (fun p => p.spotPrice) (fun p w => { p with spotPrice := w }) v := by
    simp [processEvent, mkEvent, hm]
  have hdelta : processEvent factory b ts st
      (mkEvent addr (.deltaUpdate v) tx i)
      = applyParamUpdate b ts tx i st addr "DELTA"
        (fun p => p.delta) (fun p w => { p with delta := w }) v := by
    simp [processEvent, mkEvent, hm]
  have hfee : processEvent factory b ts st
      (mkEvent addr (.feeUpdate v) tx i)
      = applyParamUpdate b ts tx i st addr "FEE"
        (fun p => p.fee) (fun p w => { p with fee := w }) v := by
    simp [processEvent, mkEvent, hm]
  have hasset : processEvent factory b ts st
      (mkEvent addr (.assetRecipientChange r) tx i)
      = applyAssetRecipientChange b ts tx i st addr r := by
    simp [processEvent, mkEvent, hm]
  refine ⟨⟨?_, ?_⟩, ⟨?_, ?_⟩, ⟨?_, ?_⟩, ⟨?_, ?_⟩⟩
  · rw [hspot]
    exact applyParamUpdate_pools_of_none b ts tx i _ _ _ v hnone
  · rw [hspot]
    exact applyParamUpdate_audit_of_none b ts tx i _ _ _ v hnone hfresh
  · rw [hdelta]
    exact applyParamUpdate_pools_of_none b ts tx i _ _ _ v hnone
  · rw [hdelta]
    exact applyParamUpdate_audit_of_none b ts tx i _ _ _ v hnone hfresh
  · rw [hfee]
    exact applyParamUpdate_pools_of_none b ts tx i _ _ _ v hnone
  · rw [hfee]
    exact applyParamUpdate_audit_of_none b ts tx i _ _ _ v hnone hfresh
  · rw [hasset]
    simp only [applyAssetRecipientChange]
    exact updatePool_of_findPool_none _ hnone
  · rw [hasset]
    simp only [applyAssetRecipientChange, hnone, Option.none_bind]
    exact insertUpdate_of_fresh hfresh

/-- An indexer state that knows the pair 0xq but has no Pool row for it. -/
def sampleStateNoRow : IndexerState :=
  { knownPairs := ["0xq"], pools := [], swaps := [], poolNfts := [],
    poolUpdates := [], protocolSettings := [] }

theorem paramUpdate_missing_pool_row_witness :
    sampleStateNoRow.knownPairs.contains "0xq" = true ∧
    findPool sampleStateNoRow.pools "0xq" = none ∧
    (processEvent "0xf" 3 30 sampleStateNoRow
      (mkEvent "0xq" (.spotPriceUpdate 44) "0xtx2" 1)).pools
      = sampleStateNoRow.pools ∧
    (processEvent "0xf" 3 30 sampleStateNoRow
      (mkEvent "0xq" (.spotPriceUpdate 44) "0xtx2" 1)).poolUpdates
      = { poolAddress := "0xq", updateType := "SPOT_PRICE",
          oldValue := none, newValue := Nat.repr 44, blockNumber := 3,
          transactionHash := "0xtx2", eventIndex := 1,
          timestamp := some 30 } :: sampleStateNoRow.poolUpdates := by
  have h := paramUpdate_missing_pool_row "0xf" 3 30 sampleStateNoRow
    "0xq" "0xtx2" "0xr" 1 44 (by decide) (by decide) (by decide)
  exact ⟨by decide, by decide, h.1.1, h.1.2⟩

/-! ## Claim C7: unmatched events leave every table unchanged -/

/-- The selectors whose transform branch is guarded by isFromFactory
(the factory event family). -/
def isFactoryKind : EventKind → Bool
  | .newERC721Pair _ _ | .newERC1155Pair _ _ | .erc20Deposit _ _
  | .nftDeposit _ _ | .erc1155Deposit _ _ _
  | .protocolFeeRecipientUpdate _ | .protocolFeeMultiplierUpdate _
  | .bondingCurveStatusUpdate _ _ | .routerStatusUpdate _ _ => true
  | _ => false

/-- The selectors whose transform branch is guarded by isFromPair
(the pair event family). -/
def isPairKind : EventKind → Bool
  | .spotPriceUpdate _ | .deltaUpdate _ | .feeUpdate _
  | .assetRecipientChange _ | .tokenDeposit _ | .tokenWithdrawal _
  | .ownershipTransferred _ _ | .swapNFTOutPairIds _ _
  | .swapNFTInPairIds _ _ | .nftWithdrawalIds _
  | .swapNFTOutPairCount _ _ | .swapNFTInPairCount _ _
  | .nftWithdrawalCount _ => true
  | _ => false

theorem processEvent_skip (factory : String) (b ts : Nat)
    (st : IndexerState) (e : RawEvent)
    (h : (¬ e.address = factory ∧ e.address ∉ st.knownPairs)
      ∨ (isFactoryKind e.kind = true ∧ ¬ e.address = factory)
      ∨ (isPairKind e.kind = true ∧ e.address ∉ st.knownPairs)
      ∨ e.kind = .unknownSelector) :
    processEvent factory b ts st e = st := by
  obtain ⟨a, k, tx, i⟩ := e
  rcases h with ⟨hf, hp⟩ | ⟨hk, hf⟩ | ⟨hk, hp⟩ | hk
  · simp [processEvent, hf, hp]
  · cases k <;> simp_all [processEvent, isFactoryKind]
  · cases k <;> simp_all [processEvent, isPairKind]
  · subst hk
    simp [processEvent]

/-- Claim C7: an event whose emitting address is neither the factory nor
a member of the known-pool set, an event whose source classification does
not match its selector's expected family, and an event whose selector
matches no known kind, all leave the five tables (pools, swaps,
pool_nfts, pool_updates, protocol_settings) completely unchanged. -/
theorem unmatched_event_frame (factory : String) (b ts : Nat)
    (st : IndexerState) (e : RawEvent)
    (h : (¬ e.address = factory ∧ e.address ∉ st.knownPairs)
      ∨ (isFactoryKind e.kind = true ∧ ¬ e.address = factory)
      ∨ (isPairKind e.kind = true ∧ e.address ∉ st.knownPairs)
      ∨ e.kind = .unknownSelector) :
    (processEvent factory b ts st e).pools = st.pools ∧
    (processEvent factory b ts st e).swaps = st.swaps ∧
    (processEvent factory b ts st e).poolNfts = st.poolNfts ∧
    (processEvent factory b ts st e).poolUpdates = st.poolUpdates ∧
    (processEvent factory b ts st e).protocolSettings
      = st.protocolSettings := by
  rw [processEvent_skip factory b ts st e h]
  exact ⟨rfl, rfl, rfl, rfl, rfl⟩

theorem unmatched_event_frame_witness :
    (¬ ("0xzz" : String) = "0xf" ∧ "0xzz" ∉ sampleState.knownPairs) ∧
    (processEvent "0xf" 4 40 sampleState
      (mkEvent "0xzz" (.tokenDeposit 5) "0xt3" 2)).pools
      = sampleState.pools ∧
    (processEvent "0xf" 4 40 sampleState
      (mkEvent "0xzz" (.tokenDeposit 5) "0xt3" 2)).swaps
      = sampleState.swaps := by
  have h := unmatched_event_frame "0xf" 4 40 sampleState
    (mkEvent "0xzz" (.tokenDeposit 5) "0xt3" 2)
    (Or.inl ⟨by decide, by decide⟩)
  exact ⟨⟨by decide, by decide⟩, h.1, h.2.1⟩

theorem findPool_cons_self (row : PoolRow) (ps : List PoolRow) :
    findPool (row :: ps) row.address = some row := by
  simp [findPool, List.find?_cons]

/-! ## Claim C10: pool creation inserts placeholder values -/

/-- Claim C10: a pool-creation event of either NFT standard that creates
a new Pool row inserts it with placeholder values: nftAddress,
tokenAddress, bondingCurve and owner are the literal string 0x0,
spotPrice, delta and fee are 0, and poolType is TRADE regardless of the
pool's actual kind. -/
theorem pool_creation_placeholder_values (factory : String) (b ts : Nat)
    (st : IndexerState) (pa tx : String) (i : Nat) (ids : List Nat)
    (bal : Nat) (hnone : findPool st.pools pa = none) :
    (∃ q, findPool (processEvent factory b ts st
        (mkEvent factory (.newERC721Pair pa ids) tx i)).pools pa
        = some q ∧
      q.nftAddress = "0x0" ∧ q.tokenAddress = "0x0" ∧
      q.bondingCurve = "0x0" ∧ q.owner = "0x0" ∧ q.spotPrice = 0 ∧
      q.delta = 0 ∧ q.fee = 0 ∧ q.poolType = "TRADE" ∧
      q.nftType = "ERC721") ∧
    (∃ q, findPool (processEvent factory b ts st
        (mkEvent factory (.newERC1155Pair pa bal) tx i)).pools pa
        = some q ∧
      q.nftAddress = "0x0" ∧ q.tokenAddress = "0x0" ∧
      q.bondingCurve = "0x0" ∧ q.owner = "0x0" ∧ q.spotPrice = 0 ∧
      q.delta = 0 ∧ q.fee = 0 ∧ q.poolType = "TRADE" ∧
      q.nftType = "ERC1155") := by
  have h721 : processEvent factory b ts st
      (mkEvent factory (.newERC721Pair pa ids) tx i)
      = applyNewERC721Pair b ts tx st pa ids := by
    simp [processEvent, mkEvent]
  have h1155 : processEvent factory b ts st
      (mkEvent factory (.newERC1155Pair pa bal) tx i)
      = applyNewERC1155Pair b ts tx st pa bal := by
    simp [processEvent, mkEvent]
  constructor
  · rw [h721]
    simp only [applyNewERC721Pair]
    rw [upsertPool_of_findPool_none _ hnone]
    exact ⟨_, findPool_cons_self _ _, rfl, rfl, rfl, rfl,
      rfl, rfl, rfl, rfl, rfl⟩
  · rw [h1155]
    simp only [applyNewERC1155Pair]
    rw [upsertPool_of_findPool_none _ hnone]
    exact ⟨_, findPool_cons_self _ _, rfl, rfl, rfl, rfl,
      rfl, rfl, rfl, rfl, rfl⟩

theorem pool_creation_placeholder_values_witness :
    findPool sampleStateNoRow.pools "0xnew" = none ∧
    ∃ q, findPool (processEvent "0xf" 5 50 sampleStateNoRow
        (mkEvent "0xf" (.newERC721Pair "0xnew" [1, 2]) "0xt4" 0)).pools
        "0xnew" = some q ∧
      q.nftAddress = "0x0" ∧ q.tokenAddress = "0x0" ∧
      q.bondingCurve = "0x0" ∧ q.owner = "0x0" ∧ q.spotPrice = 0 ∧
      q.delta = 0 ∧ q.fee = 0 ∧ q.poolType = "TRADE" ∧
      q.nftType = "ERC721" := by
  have h := pool_creation_placeholder_values "0xf" 5 50 sampleStateNoRow
    "0xnew" "0xt4" 0 [1, 2] 9 (by decide)
  exact ⟨by decide, h.1⟩

/-! ## Claim C2: the isActive biconditional -/

/-- The ERC721 buy event used to exhibit isActive and replay behaviour:
pool 0xp sells its only NFT (id 1) for 1000 tokens. -/
def sampleBuyEvent : RawEvent :=
  mkEvent "0xp" (.swapNFTOutPairIds 1000 [1]) "0xtx" 0

/-- Claim C2, counterexample: a buy that empties the pool's NFT inventory
while crediting its token balance produces a Pool row with isActive =
false although tokenBalance = 1007 > 0, so isActive is not true iff the
pool holds NFTs or payment-token balance. -/
theorem isActive_biconditional_cex :
    ∃ p ∈ (processEvent "0xf" 2 20 sampleState sampleBuyEvent).pools,
      p.isActive = false ∧ 0 < p.tokenBalance ∧
      ¬ (p.isActive = true ↔ (0 < p.nftCount ∨ 0 < p.tokenBalance)) := by
  decide

/-- Claim C2, amended: after an NFT-withdrawal transition (either shape)
on an existing Pool row, isActive is true iff the pool holds NFTs or
payment-token balance; the other transitions set isActive by their own
per-branch rule (true for deposits and sells, remaining NFT count
positive for buys, unchanged for token withdrawals), so the biconditional
does not hold after every transition. -/
theorem nft_withdrawal_isActive_consistent (factory : String) (b ts : Nat)
    (st : IndexerState) (addr tx : String) (i : Nat) (ids : List Nat)
    (numNfts : Nat) (p : PoolRow)
    (hpair : st.knownPairs.contains addr = true)
    (hfind : findPool st.pools addr = some p) :
    (∃ q, findPool (processEvent factory b ts st
        (mkEvent addr (.nftWithdrawalIds ids) tx i)).pools addr = some q ∧
      (q.isActive = true ↔ (0 < q.nftCount ∨ 0 < q.tokenBalance))) ∧
    (∃ q, findPool (processEvent factory b ts st
        (mkEvent addr (.nftWithdrawalCount numNfts) tx i)).pools addr
        = some q ∧
      (q.isActive = true ↔ (0 < q.nftCount ∨ 0 < q.tokenBalance))) := by
  have hm : addr ∈ st.knownPairs := List.elem_iff.mp hpair
  constructor
  · have hstep : processEvent factory b ts st
        (mkEvent addr (.nftWithdrawalIds ids) tx i)
        = applyNFTWithdrawalIds ts st addr ids := by
      simp [processEvent, mkEvent, hm]
    rw [hstep]
    simp only [applyNFTWithdrawalIds, hfind]
    refine ⟨{ p with
        nftCount := max 0 (p.nftCount - (ids.length : Int)),
        isActive := decide (0 < max 0 (p.nftCount - (ids.length : Int)))
          || decide (0 < p.tokenBalance),
        updatedAt := some ts }, ?_, ?_⟩
    · rw [findPool_updatePool st.pools addr (fun q => { q with
          nftCount := max 0 (p.nftCount - (ids.length : Int)),
          isActive := decide (0 < max 0 (p.nftCount - (ids.length : Int)))
            || decide (0 < p.tokenBalance),
          updatedAt := some ts }) (fun q => rfl), hfind]
      rfl
    · show (decide (0 < max 0 (p.nftCount - (ids.length : Int)))
        || decide (0 < p.tokenBalance)) = true
        ↔ (0 < max 0 (p.nftCount - (ids.length : Int))
          ∨ 0 < p.tokenBalance)
      simp
  · have hstep : processEvent factory b ts st
        (mkEvent addr (.nftWithdrawalCount numNfts) tx i)
        = applyNFTWithdrawalCount ts st addr numNfts := by
      simp [processEvent, mkEvent, hm]
    rw [hstep]
    simp only [applyNFTWithdrawalCount, hfind]
    refine ⟨{ p with
        nftCount := max 0 (p.nftCount - (numNfts : Int)),
        isActive := decide (0 < max 0 (p.nftCount - (numNfts : Int)))
          || decide (0 < p.tokenBalance),
        updatedAt := some ts }, ?_, ?_⟩
    · rw [findPool_updatePool st.pools addr (fun q => { q with
          nftCount := max 0 (p.nftCount - (numNfts : Int)),
          isActive := decide (0 < max 0 (p.nftCount - (numNfts : Int)))
            || decide (0 < p.tokenBalance),
          updatedAt := some ts }) (fun q => rfl), hfind]
      rfl
    · show (decide (0 < max 0 (p.nftCount - (numNfts : Int)))
        || decide (0 < p.tokenBalance)) = true
        ↔ (0 < max 0 (p.nftCount - (numNfts : Int))
          ∨ 0 < p.tokenBalance)
      simp

theorem nft_withdrawal_isActive_consistent_witness :
    sampleState.knownPairs.contains "0xp" = true ∧
    findPool sampleState.pools "0xp" = some samplePool ∧
    ∃ q, findPool (processEvent "0xf" 6 60 sampleState
        (mkEvent "0xp" (.nftWithdrawalIds [1]) "0xt5" 0)).pools "0xp"
      = some q ∧
      (q.isActive = true ↔ (0 < q.nftCount ∨ 0 < q.tokenBalance)) := by
  have h := nft_withdrawal_isActive_consistent "0xf" 6 60 sampleState
    "0xp" "0xt5" 0 [1] 1 samplePool (by decide) (by decide)
  exact ⟨by decide, by decide, h.1⟩

/-! ## Claim C1: replaying the same swap event -/

theorem applySwapNFTOutPairIds_knownPairs (b ts : Nat) (tx : String)
    (i : Nat) (st : IndexerState) (addr : String) (amountIn : Nat)
    (ids : List Nat) :
    (applySwapNFTOutPairIds b ts tx i st addr amountIn ids).knownPairs
      = st.knownPairs := by
  cases hfind : findPool st.pools addr <;>
    simp [applySwapNFTOutPairIds, hfind]

theorem applySwapNFTInPairIds_knownPairs (b ts : Nat) (tx : String)
    (i : Nat) (st : IndexerState) (addr : String) (amountOut : Nat)
    (ids : List Nat) :
    (applySwapNFTInPairIds b ts tx i st addr amountOut ids).knownPairs
      = st.knownPairs := by
  cases hfind : findPool st.pools addr <;>
    simp [applySwapNFTInPairIds, hfind]

theorem applySwapNFTOutPairCount_knownPairs (b ts : Nat) (tx : String)
    (i : Nat) (st : IndexerState) (addr : String) (amountIn numNfts : Nat) :
    (applySwapNFTOutPairCount b ts tx i st addr amountIn numNfts).knownPairs
      = st.knownPairs := by
  cases hfind : findPool st.pools addr <;>
    simp [applySwapNFTOutPairCount, hfind]

theorem applySwapNFTInPairCount_knownPairs (b ts : Nat) (tx : String)
    (i : Nat) (st : IndexerState) (addr : String) (amountOut numNfts : Nat) :
    (applySwapNFTInPairCount b ts tx i st addr amountOut numNfts).knownPairs
      = st.knownPairs := by
  cases hfind : findPool st.pools addr <;>
    simp [applySwapNFTInPairCount, hfind]

theorem applySwapNFTOutPairIds_swaps (b ts : Nat) (tx : String) (i : Nat)
    (st : IndexerState) (addr : String) (amountIn : Nat) (ids : List Nat) :
    (applySwapNFTOutPairIds b ts tx i st addr amountIn ids).swaps
      = insertSwap st.swaps
        { poolAddress := addr, direction := "BUY", tokenAmount := amountIn,
          nftCount := ids.length, nftIds := some ids, blockNumber := b,
          transactionHash := tx, eventIndex := i, timestamp := some ts } := by
  cases hfind : findPool st.pools addr <;>
    simp [applySwapNFTOutPairIds, hfind]

theorem applySwapNFTInPairIds_swaps (b ts : Nat) (tx : String) (i : Nat)
    (st : IndexerState) (addr : String) (amountOut : Nat) (ids : List Nat) :
    (applySwapNFTInPairIds b ts tx i st addr amountOut ids).swaps
      = insertSwap st.swaps
        { poolAddress := addr, direction := "SELL",
          tokenAmount := amountOut, nftCount := ids.length,
          nftIds := some ids, blockNumber := b, transactionHash := tx,
          eventIndex := i, timestamp := some ts } := by
  cases hfind : findPool st.pools addr <;>
    simp [applySwapNFTInPairIds, hfind]

theorem applySwapNFTOutPairCount_swaps (b ts : Nat) (tx : String) (i : Nat)
    (st : IndexerState) (addr : String) (amountIn numNfts : Nat) :
    (applySwapNFTOutPairCount b ts tx i st addr amountIn numNfts).swaps
      = insertSwap st.swaps
        { poolAddress := addr, direction := "BUY", tokenAmount := amountIn,
          nftCount := numNfts, nftIds := none, blockNumber := b,
          transactionHash := tx, eventIndex := i, timestamp := some ts } := by
  cases hfind : findPool st.pools addr <;>
    simp [applySwapNFTOutPairCount, hfind]

theorem applySwapNFTInPairCount_swaps (b ts : Nat) (tx : String) (i : Nat)
    (st : IndexerState) (addr : String) (amountOut numNfts : Nat) :
    (applySwapNFTInPairCount b ts tx i st addr amountOut numNfts).swaps
      = insertSwap st.swaps
        { poolAddress := addr, direction := "SELL",
          tokenAmount := amountOut, nftCount := numNfts, nftIds := none,
          blockNumber := b, transactionHash := tx, eventIndex := i,
          timestamp := some ts } := by
  cases hfind : findPool st.pools addr <;>
    simp [applySwapNFTInPairCount, hfind]

/-- Claim C1, counterexample: re-processing the same physical buy event
(same block, transaction hash and event index) does not leave the state
identical to processing it once.  The second application creates no
second Swap row, but the Pool row's arithmetic is applied again: the
balance of pool 0xp (7 before, 1007 after one application) becomes 2007
after the replay. -/
theorem swap_replay_not_idempotent_cex :
    (processEvent "0xf" 2 20 (processEvent "0xf" 2 20 sampleState
        sampleBuyEvent) sampleBuyEvent).swaps
      = (processEvent "0xf" 2 20 sampleState sampleBuyEvent).swaps ∧
    (∃ p ∈ (processEvent "0xf" 2 20 sampleState sampleBuyEvent).pools,
      p.tokenBalance = 1007) ∧
    (∃ p ∈ (processEvent "0xf" 2 20 (processEvent "0xf" 2 20 sampleState
        sampleBuyEvent) sampleBuyEvent).pools, p.tokenBalance = 2007) ∧
    ¬ (processEvent "0xf" 2 20 (processEvent "0xf" 2 20 sampleState
        sampleBuyEvent) sampleBuyEvent
      = processEvent "0xf" 2 20 sampleState sampleBuyEvent) := by
  refine ⟨by decide, by decide, by decide, by decide⟩

/-- Claim C1, amended: re-processing the same decoded swap event (any of
the four swap shapes, with the same block, transaction hash and event
index) never creates a second Swap row: the swaps table after the second
application equals the table after the first.  The Pool row's
tokenBalance and nftCount arithmetic, however, is re-applied on each
processing rather than applied exactly once. -/
theorem swap_replay_no_second_swap_row (factory : String) (b ts : Nat)
    (st : IndexerState) (e : RawEvent)
    (h : (∃ a ids, e.kind = .swapNFTOutPairIds a ids)
      ∨ (∃ a ids, e.kind = .swapNFTInPairIds a ids)
      ∨ (∃ a n, e.kind = .swapNFTOutPairCount a n)
      ∨ (∃ a n, e.kind = .swapNFTInPairCount a n)) :
    (processEvent factory b ts (processEvent factory b ts st e) e).swaps
      = (processEvent factory b ts st e).swaps := by
  obtain ⟨addr, k, tx, i⟩ := e
  rcases h with ⟨a, ids, hk⟩ | ⟨a, ids, hk⟩ | ⟨a, n, hk⟩ | ⟨a, n, hk⟩ <;>
    simp only at hk <;> subst hk <;>
    by_cases hm : addr ∈ st.knownPairs
  · have h1 : processEvent factory b ts st
        ⟨addr, .swapNFTOutPairIds a ids, tx, i⟩
        = applySwapNFTOutPairIds b ts tx i st addr a ids := by
      simp [processEvent, hm]
    have h3 : processEvent factory b ts
        (applySwapNFTOutPairIds b ts tx i st addr a ids)
        ⟨addr, .swapNFTOutPairIds a ids, tx, i⟩
        = applySwapNFTOutPairIds b ts tx i
          (applySwapNFTOutPairIds b ts tx i st addr a ids) addr a ids := by
      simp [processEvent, applySwapNFTOutPairIds_knownPairs, hm]
    rw [h1, h3, applySwapNFTOutPairIds_swaps, applySwapNFTOutPairIds_swaps]
    exact insertSwap_insertSwap _ _
  · have h1 : processEvent factory b ts st
        ⟨addr, .swapNFTOutPairIds a ids, tx, i⟩ = st := by
      by_cases hf : addr = factory
      · subst hf
        simp [processEvent, hm]
      · simp [processEvent, hm, hf]
    simp [h1]
  · have h1 : processEvent factory b ts st
        ⟨addr, .swapNFTInPairIds a ids, tx, i⟩
        = applySwapNFTInPairIds b ts tx i st addr a ids := by
      simp [processEvent, hm]
    have h3 : processEvent factory b ts
        (applySwapNFTInPairIds b ts tx i st addr a ids)
        ⟨addr, .swapNFTInPairIds a ids, tx, i⟩
        = applySwapNFTInPairIds b ts tx i
          (applySwapNFTInPairIds b ts tx i st addr a ids) addr a ids := by
      simp [processEvent, applySwapNFTInPairIds_knownPairs, hm]
    rw [h1, h3, applySwapNFTInPairIds_swaps, applySwapNFTInPairIds_swaps]
    exact insertSwap_insertSwap _ _
  · have h1 : processEvent factory b ts st
        ⟨addr, .swapNFTInPairIds a ids, tx, i⟩ = st := by
      by_cases hf : addr = factory
      · subst hf
        simp [processEvent, hm]
      · simp [processEvent, hm, hf]
    simp [h1]
  · have h1 : processEvent factory b ts st
        ⟨addr, .swapNFTOutPairCount a n, tx, i⟩
        = applySwapNFTOutPairCount b ts tx i st addr a n := by
      simp [processEvent, hm]
    have h3 : processEvent factory b ts
        (applySwapNFTOutPairCount b ts tx i st addr a n)
        ⟨addr, .swapNFTOutPairCount a n, tx, i⟩
        = applySwapNFTOutPairCount b ts tx i
          (applySwapNFTOutPairCount b ts tx i st addr a n) addr a n := by
      simp [processEvent, applySwapNFTOutPairCount_knownPairs, hm]
    rw [h1, h3, applySwapNFTOutPairCount_swaps,
      applySwapNFTOutPairCount_swaps]
    exact insertSwap_insertSwap _ _
  · have h1 : processEvent factory b ts st
        ⟨addr, .swapNFTOutPairCount a n, tx, i⟩ = st := by
      by_cases hf : addr = factory
      · subst hf
        simp [processEvent, hm]
      · simp [processEvent, hm, hf]
    simp [h1]
  · have h1 : processEvent factory b ts st
        ⟨addr, .swapNFTInPairCount a n, tx, i⟩
        = applySwapNFTInPairCount b ts tx i st addr a n := by
      simp [processEvent, hm]
    have h3 : processEvent factory b ts
        (applySwapNFTInPairCount b ts tx i st addr a n)
        ⟨addr, .swapNFTInPairCount a n, tx, i⟩
        = applySwapNFTInPairCount b ts tx i
          (applySwapNFTInPairCount b ts tx i st addr a n) addr a n := by
      simp [processEvent, applySwapNFTInPairCount_knownPairs, hm]
    rw [h1, h3, applySwapNFTInPairCount_swaps,
      applySwapNFTInPairCount_swaps]
    exact insertSwap_insertSwap _ _
  · have h1 : processEvent factory b ts st
        ⟨addr, .swapNFTInPairCount a n, tx, i⟩ = st := by
      by_cases hf : addr = factory
      · subst hf
        simp [processEvent, hm]
      · simp [processEvent, hm, hf]
    simp [h1]

theorem swap_replay_no_second_swap_row_witness :
    ((∃ a ids, sampleBuyEvent.kind = .swapNFTOutPairIds a ids)
      ∨ (∃ a ids, sampleBuyEvent.kind = .swapNFTInPairIds a ids)
      ∨ (∃ a n, sampleBuyEvent.kind = .swapNFTOutPairCount a n)
      ∨ (∃ a n, sampleBuyEvent.kind = .swapNFTInPairCount a n)) ∧
    (processEvent "0xf" 2 20 (processEvent "0xf" 2 20 sampleState
        sampleBuyEvent) sampleBuyEvent).swaps
      = (processEvent "0xf" 2 20 sampleState sampleBuyEvent).swaps :=
  ⟨Or.inl ⟨1000, [1], rfl⟩,
    swap_replay_no_second_swap_row "0xf" 2 20 sampleState sampleBuyEvent
      (Or.inl ⟨1000, [1], rfl⟩)⟩

/-! ## Claim C3: balances never go negative -/

/-- The balance invariant of one Pool row. -/
def poolNonneg (p : PoolRow) : Prop := 0 ≤ p.tokenBalance ∧ 0 ≤ p.nftCount

/-- The balance invariant over every Pool row of the state. -/
def poolsNonneg (st : IndexerState) : Prop := ∀ p ∈ st.pools, poolNonneg p

theorem poolsNonneg_updatePool {pools : List PoolRow} {a : String}
    {f : PoolRow → PoolRow} (h : ∀ q ∈ pools, poolNonneg q)
    (hf : ∀ q ∈ pools, poolNonneg (f q)) :
    ∀ q ∈ updatePool pools a f, poolNonneg q := by
  intro q hq
  unfold updatePool at hq
  obtain ⟨r, hr, hrq⟩ := List.mem_map.mp hq
  by_cases hc : (r.address == a) = true
  · rw [if_pos hc] at hrq
    exact hrq ▸ hf r hr
  · rw [if_neg hc] at hrq
    exact hrq ▸ h r hr

theorem applyNewERC721Pair_nonneg (b ts : Nat) (tx : String)
    (st : IndexerState) (pa : String) (ids : List Nat)
    (h : poolsNonneg st) :
    poolsNonneg (applyNewERC721Pair b ts tx st pa ids) := by
  intro q hq
  simp only [applyNewERC721Pair, upsertPool] at hq
  split at hq
  · refine poolsNonneg_updatePool h ?_ q hq
    intro r hr
    exact ⟨(h r hr).1, Int.natCast_nonneg _⟩
  · rcases List.mem_cons.mp hq with hq | hq
    · subst hq
      exact ⟨le_refl 0, Int.natCast_nonneg _⟩
    · exact h q hq

theorem applyNewERC1155Pair_nonneg (b ts : Nat) (tx : String)
    (st : IndexerState) (pa : String) (bal : Nat) (h : poolsNonneg st) :
    poolsNonneg (applyNewERC1155Pair b ts tx st pa bal) := by
  intro q hq
  simp only [applyNewERC1155Pair, upsertPool] at hq
  split at hq
  · refine poolsNonneg_updatePool h ?_ q hq
    intro r hr
    exact ⟨(h r hr).1, Int.natCast_nonneg _⟩
  · rcases List.mem_cons.mp hq with hq | hq
    · subst hq
      exact ⟨le_refl 0, Int.natCast_nonneg _⟩
    · exact h q hq

theorem applyERC20Deposit_nonneg (ts : Nat) (st : IndexerState)
    (pa : String) (amount : Nat) (h : poolsNonneg st) :
    poolsNonneg (applyERC20Deposit ts st pa amount) := by
  unfold applyERC20Deposit
  cases hfind : findPool st.pools pa with
  | none => exact h
  | some p =>
    have hp := h p (findPool_mem hfind)
    intro q hq
    refine poolsNonneg_updatePool h ?_ q hq
    intro r hr
    refine ⟨?_, (h r hr).2⟩
    show (0 : Int) ≤ p.tokenBalance + (amount : Int)
    have := hp.1
    omega

theorem applyNFTDeposit_nonneg (b ts : Nat) (st : IndexerState)
    (pa : String) (ids : List Nat) (h : poolsNonneg st) :
    poolsNonneg (applyNFTDeposit b ts st pa ids) := by
  unfold applyNFTDeposit
  split
  · cases hfind : findPool st.pools pa with
    | none => exact h
    | some p =>
      have hp := h p (findPool_mem hfind)
      intro q hq
      refine poolsNonneg_updatePool h ?_ q hq
      intro r hr
      refine ⟨(h r hr).1, ?_⟩
      show (0 : Int) ≤ p.nftCount + (ids.length : Int)
      have := hp.2
      omega
  · exact h

theorem applyERC1155Deposit_nonneg (ts : Nat) (st : IndexerState)
    (pa : String) (tokenId amount : Nat) (h : poolsNonneg st) :
    poolsNonneg (applyERC1155Deposit ts st pa tokenId amount) := by
  unfold applyERC1155Deposit
  cases hfind : findPool st.pools pa with
  | none => exact h
  | some p =>
    have hp := h p (findPool_mem hfind)
    intro q hq
    refine poolsNonneg_updatePool h ?_ q hq
    intro r hr
    refine ⟨(h r hr).1, ?_⟩
    show (0 : Int) ≤ p.nftCount + (amount : Int)
    have := hp.2
    omega

theorem applyProtocolSetting_nonneg (b ts : Nat) (tx : String) (i : Nat)
    (st : IndexerState) (sty : String) (sa : Option String) (v : String)
    (h : poolsNonneg st) :
    poolsNonneg (applyProtocolSetting b ts tx i st sty sa v) := h

theorem applyParamUpdate_nonneg (b ts : Nat) (tx : String) (i : Nat)
    (st : IndexerState) (addr ut : String) (get : PoolRow → Nat)
    (set : PoolRow → Nat → PoolRow) (v : Nat)
    (hset : ∀ q w, ( set q w).tokenBalance = q.tokenBalance ∧
      ( set q w).nftCount = q.nftCount)
    (h : poolsNonneg st) :
    poolsNonneg (applyParamUpdate b ts tx i st addr ut get set v) := by
  intro q hq
  refine poolsNonneg_updatePool h ?_ q hq
  intro r hr
  refine ⟨?_, ?_⟩
  · show (0 : Int) ≤ ( set r v).tokenBalance
    rw [(hset r v).1]
    exact (h r hr).1
  · show (0 : Int) ≤ ( set r v).nftCount
    rw [(hset r v).2]
    exact (h r hr).2

theorem applyAssetRecipientChange_nonneg (b ts : Nat) (tx : String)
    (i : Nat) (st : IndexerState) (addr r : String) (h : poolsNonneg st) :
    poolsNonneg (applyAssetRecipientChange b ts tx i st addr r) := by
  intro q hq
  refine poolsNonneg_updatePool h ?_ q hq
  intro r hr
  exact ⟨(h r hr).1, (h r hr).2⟩

theorem applyTokenDeposit_nonneg (ts : Nat) (st : IndexerState)
    (addr : String) (amount : Nat) (h : poolsNonneg st) :
    poolsNonneg (applyTokenDeposit ts st addr amount) := by
  unfold applyTokenDeposit
  cases hfind : findPool st.pools addr with
  | none => exact h
  | some p =>
    have hp := h p (findPool_mem hfind)
    intro q hq
    refine poolsNonneg_updatePool h ?_ q hq
    intro r hr
    refine ⟨?_, (h r hr).2⟩
    show (0 : Int) ≤ p.tokenBalance + (amount : Int)
    have := hp.1
    omega

theorem applyTokenWithdrawal_nonneg (ts : Nat) (st : IndexerState)
    (addr : String) (amount : Nat) (h : poolsNonneg st) :
    poolsNonneg (applyTokenWithdrawal ts st addr amount) := by
  unfold applyTokenWithdrawal
  cases hfind : findPool st.pools addr with
  | none => exact h
  | some p =>
    intro q hq
    refine poolsNonneg_updatePool h ?_ q hq
    intro r hr
    refine ⟨?_, (h r hr).2⟩
    show (0 : Int) ≤ if p.tokenBalance > (amount : Int) then
      p.tokenBalance - (amount : Int) else 0
    split <;> omega

theorem applyOwnershipTransferred_nonneg (b ts : Nat) (tx : String)
    (i : Nat) (st : IndexerState) (addr po no : String)
    (h : poolsNonneg st) :
    poolsNonneg (applyOwnershipTransferred b ts tx i st addr po no) := by
  intro q hq
  refine poolsNonneg_updatePool h ?_ q hq
  intro r hr
  exact ⟨(h r hr).1, (h r hr).2⟩

theorem applySwapNFTOutPairIds_nonneg (b ts : Nat) (tx : String) (i : Nat)
    (st : IndexerState) (addr : String) (amountIn : Nat) (ids : List Nat)
    (h : poolsNonneg st) :
    poolsNonneg (applySwapNFTOutPairIds b ts tx i st addr amountIn ids) := by
  unfold applySwapNFTOutPairIds
  cases hfind : findPool st.pools addr with
  | none => exact h
  | some p =>
    have hp := h p (findPool_mem hfind)
    intro q hq
    refine poolsNonneg_updatePool h ?_ q hq
    intro r hr
    refine ⟨?_, ?_⟩
    · show (0 : Int) ≤ p.tokenBalance + (amountIn : Int)
      have := hp.1
      omega
    · show (0 : Int) ≤ max 0 (p.nftCount - (ids.length : Int))
      omega

theorem applySwapNFTInPairIds_nonneg (b ts : Nat) (tx : String) (i : Nat)
    (st : IndexerState) (addr : String) (amountOut : Nat) (ids : List Nat)
    (h : poolsNonneg st) :
    poolsNonneg (applySwapNFTInPairIds b ts tx i st addr amountOut ids) := by
  unfold applySwapNFTInPairIds
  cases hfind : findPool st.pools addr with
  | none => exact h
  | some p =>
    have hp := h p (findPool_mem hfind)
    intro q hq
    refine poolsNonneg_updatePool h ?_ q hq
    intro r hr
    refine ⟨?_, ?_⟩
    · show (0 : Int) ≤ if p.tokenBalance > (amountOut : Int) then
        p.tokenBalance - (amountOut : Int) else 0
      split <;> omega
    · show (0 : Int) ≤ p.nftCount + (ids.length : Int)
      have := hp.2
      omega

theorem applyNFTWithdrawalIds_nonneg (ts : Nat) (st : IndexerState)
    (addr : String) (ids : List Nat) (h : poolsNonneg st) :
    poolsNonneg (applyNFTWithdrawalIds ts st addr ids) := by
  unfold applyNFTWithdrawalIds
  cases hfind : findPool st.pools addr with
  | none => exact h
  | some p =>
    intro q hq
    refine poolsNonneg_updatePool h ?_ q hq
    intro r hr
    refine ⟨(h r hr).1, ?_⟩
    show (0 : Int) ≤ max 0 (p.nftCount - (ids.length : Int))
    omega

theorem applySwapNFTOutPairCount_nonneg (b ts : Nat) (tx : String)
    (i : Nat) (st : IndexerState) (addr : String) (amountIn numNfts : Nat)
    (h : poolsNonneg st) :
    poolsNonneg
      (applySwapNFTOutPairCount b ts tx i st addr amountIn numNfts) := by
  unfold applySwapNFTOutPairCount
  cases hfind : findPool st.pools addr with
  | none => exact h
  | some p =>
    have hp := h p (findPool_mem hfind)
    intro q hq
    refine poolsNonneg_updatePool h ?_ q hq
    intro r hr
    refine ⟨?_, ?_⟩
    · show (0 : Int) ≤ p.tokenBalance + (amountIn : Int)
      have := hp.1
      omega
    · show (0 : Int) ≤ max 0 (p.nftCount - (numNfts : Int))
      omega

theorem applySwapNFTInPairCount_nonneg (b ts : Nat) (tx : String)
    (i : Nat) (st : IndexerState) (addr : String) (amountOut numNfts : Nat)
    (h : poolsNonneg st) :
    poolsNonneg
      (applySwapNFTInPairCount b ts tx i st addr amountOut numNfts) := by
  unfold applySwapNFTInPairCount
  cases hfind : findPool st.pools addr with
  | none => exact h
  | some p =>
    have hp := h p (findPool_mem hfind)
    intro q hq
    refine poolsNonneg_updatePool h ?_ q hq
    intro r hr
    refine ⟨?_, ?_⟩
    · show (0 : Int) ≤ if p.tokenBalance > (amountOut : Int) then
        p.tokenBalance - (amountOut : Int) else 0
      split <;> omega
    · show (0 : Int) ≤ p.nftCount + (numNfts : Int)
      have := hp.2
      omega

theorem applyNFTWithdrawalCount_nonneg (ts : Nat) (st : IndexerState)
    (addr : String) (numNfts : Nat) (h : poolsNonneg st) :
    poolsNonneg (applyNFTWithdrawalCount ts st addr numNfts) := by
  unfold applyNFTWithdrawalCount
  cases hfind : findPool st.pools addr with
  | none => exact h
  | some p =>
    intro q hq
    refine poolsNonneg_updatePool h ?_ q hq
    intro r hr
    refine ⟨(h r hr).1, ?_⟩
    show (0 : Int) ≤ max 0 (p.nftCount - (numNfts : Int))
    omega

theorem processEvent_nonneg (factory : String) (b ts : Nat)
    (st : IndexerState) (e : RawEvent) (h : poolsNonneg st) :
    poolsNonneg (processEvent factory b ts st e) := by
  obtain ⟨addr, k, tx, i⟩ := e
  cases k with
  | newERC721Pair pa ids =>
    simp only [processEvent]
    split
    · exact h
    · split
      · exact applyNewERC721Pair_nonneg b ts tx st pa ids h
      · exact h
  | newERC1155Pair pa bal =>
    simp only [processEvent]
    split
    · exact h
    · split
      · exact applyNewERC1155Pair_nonneg b ts tx st pa bal h
      · exact h
  | erc20Deposit pa amount =>
    simp only [processEvent]
    split
    · exact h
    · split
      · exact applyERC20Deposit_nonneg ts st pa amount h
      · exact h
  | nftDeposit pa ids =>
    simp only [processEvent]
    split
    · exact h
    · split
      · exact applyNFTDeposit_nonneg b ts st pa ids h
      · exact h
  | erc1155Deposit pa tokenId amount =>
    simp only [processEvent]
    split
    · exact h
    · split
      · exact applyERC1155Deposit_nonneg ts st pa tokenId amount h
      · exact h
  | protocolFeeRecipientUpdate ra =>
    simp only [processEvent]
    split
    · exact h
    · split
      · exact applyProtocolSetting_nonneg b ts tx i st _ _ _ h
      · exact h
  | protocolFeeMultiplierUpdate m =>
    simp only [processEvent]
    split
    · exact h
    · split
      · exact applyProtocolSetting_nonneg b ts tx i st _ _ _ h
      · exact h
  | bondingCurveStatusUpdate c al =>
    simp only [processEvent]
    split
    · exact h
    · split
      · exact applyProtocolSetting_nonneg b ts tx i st _ _ _ h
      · exact h
  | routerStatusUpdate r al =>
    simp only [processEvent]
    split
    · exact h
    · split
      · exact applyProtocolSetting_nonneg b ts tx i st _ _ _ h
      · exact h
  | spotPriceUpdate v =>
    simp only [processEvent]
    split
    · exact h
    · split
      · exact applyParamUpdate_nonneg b ts tx i st addr _ _ _ v
          (fun q w => ⟨rfl, rfl⟩) h
      · exact h
  | deltaUpdate v =>
    simp only [processEvent]
    split
    · exact h
    · split
      · exact applyParamUpdate_nonneg b ts tx i st addr _ _ _ v
          (fun q w => ⟨rfl, rfl⟩) h
      · exact h
  | feeUpdate v =>
    simp only [processEvent]
    split
    · exact h
    · split
      · exact applyParamUpdate_nonneg b ts tx i st addr _ _ _ v
          (fun q w => ⟨rfl, rfl⟩) h
      · exact h
  | assetRecipientChange r =>
    simp only [processEvent]
    split
    · exact h
    · split
      · exact applyAssetRecipientChange_nonneg b ts tx i st addr r h
      · exact h
  | tokenDeposit amount =>
    simp only [processEvent]
    split
    · exact h
    · split
      · exact applyTokenDeposit_nonneg ts st addr amount h
      · exact h
  | tokenWithdrawal amount =>
    simp only [processEvent]
    split
    · exact h
    · split
      · exact applyTokenWithdrawal_nonneg ts st addr amount h
      · exact h
  | ownershipTransferred po no =>
    simp only [processEvent]
    split
    · exact h
    · split
      · exact applyOwnershipTransferred_nonneg b ts tx i st addr po no h
      · exact h
  | swapNFTOutPairIds a ids =>
    simp only [processEvent]
    split
    · exact h
    · split
      · exact applySwapNFTOutPairIds_nonneg b ts tx i st addr a ids h
      · exact h
  | swapNFTInPairIds a ids =>
    simp only [processEvent]
    split
    · exact h
    · split
      · exact applySwapNFTInPairIds_nonneg b ts tx i st addr a ids h
      · exact h
  | nftWithdrawalIds ids =>
    simp only [processEvent]
    split
    · exact h
    · split
      · exact applyNFTWithdrawalIds_nonneg ts st addr ids h
      · exact h
  | swapNFTOutPairCount a n =>
    simp only [processEvent]
    split
    · exact h
    · split
      · exact applySwapNFTOutPairCount_nonneg b ts tx i st addr a n h
      · exact h
  | swapNFTInPairCount a n =>
    simp only [processEvent]
    split
    · exact h
    · split
      · exact applySwapNFTInPairCount_nonneg b ts tx i st addr a n h
      · exact h
  | nftWithdrawalCount n =>
    simp only [processEvent]
    split
    · exact h
    · split
      · exact applyNFTWithdrawalCount_nonneg ts st addr n h
      · exact h
  | unknownSelector =>
    simp only [processEvent]
    split
    · exact h
    · exact h

/-- Claim C3: after any sequence of events (in particular any sequence of
deposit, withdrawal, buy and sell events) applied to a state whose Pool
rows all have non-negative balances, every Pool row still has
tokenBalance at least 0 and nftCount at least 0. -/
theorem processAll_balances_nonneg (factory : String) (st : IndexerState)
    (evs : List (Nat × Nat × RawEvent)) (h : poolsNonneg st) :
    poolsNonneg (processAll factory st evs) := by
  induction evs generalizing st with
  | nil => exact h
  | cons ev rest ih =>
    exact ih (processEvent factory ev.1 ev.2.1 st ev.2.2)
      (processEvent_nonneg factory ev.1 ev.2.1 st ev.2.2 h)

theorem processAll_balances_nonneg_witness :
    poolsNonneg sampleState ∧
    poolsNonneg (processAll "0xf" sampleState
      [(2, 20, sampleBuyEvent),
       (3, 30, mkEvent "0xp" (.tokenWithdrawal 5000) "0xty" 0),
       (4, 40, mkEvent "0xp" (.swapNFTInPairIds 600 [9]) "0xtz" 1)]) := by
  have hbase : poolsNonneg sampleState := by
    intro p hp
    rcases List.mem_singleton.mp hp with rfl
    exact ⟨by decide, by decide⟩
  exact ⟨hbase, processAll_balances_nonneg "0xf" sampleState _ hbase⟩
